import Mathlib

/-!
Shallow embedding of `app/services/rate_limiter.py` (class `RateLimitService`).

The Python class keeps `self._usage : Dict[str, Tuple[str, int]]` mapping a
user id to a pair `(date_string, count)`, and `self._limit`, an `int` read
from configuration at construction time.  Dates are `YYYY-MM-DD` strings
compared only for equality in the source (lexicographic order on such strings
coincides with calendar order); we model a day as a `Nat`.  Counts and the
limit are Python `int`s, modelled as `Int` so that `max(0, limit - count)`
keeps its source meaning.

Each method that returns a value without assigning to `self._usage` is
translated as a function returning the value paired with the (unchanged)
service state, so that frame properties are stated about the translation
rather than assumed.
-/

structure RateLimitService where
  usage : String → Option (Nat × Int)
  limit : Int

/-- The state built by `__init__`: empty usage dictionary, limit from settings. -/
def emptyService (limit : Int) : RateLimitService :=
  { usage := fun _ => none, limit := limit }

/-- Dictionary assignment `self._usage[user_id] = v`. -/
def store_set (f : String → Option (Nat × Int)) (k : String) (v : Nat × Int) :
    String → Option (Nat × Int) :=
  fun u => if u = k then some v else f u

/-- Translation of `check_limit`: each `return` site yields the boolean paired
with the service state, which the method body never assigns to. -/
def check_limit_state (s : RateLimitService) (today : Nat) (user_id : String) :
    Bool × RateLimitService :=
  match s.usage user_id with
  | none => (true, s)
  | some (last_date, count) =>
      if last_date ≠ today then (true, s)
      else (decide (count < s.limit), s)

/-- The boolean result of `check_limit`. -/
def check_limit (s : RateLimitService) (today : Nat) (user_id : String) : Bool :=
  (check_limit_state s today user_id).1

/-- Translation of `increment_usage` (returns `None` in Python; here the
updated state). -/
def increment_usage (s : RateLimitService) (today : Nat) (user_id : String) :
    RateLimitService :=
  match s.usage user_id with
  | none => { s with usage := store_set s.usage user_id (today, 1) }
  | some (last_date, count) =>
      if last_date ≠ today then
        { s with usage := store_set s.usage user_id (today, 1) }
      else
        { s with usage := store_set s.usage user_id (today, count + 1) }

/-- Translation of `get_remaining_requests`, value paired with the unchanged
state. -/
def get_remaining_state (s : RateLimitService) (today : Nat) (user_id : String) :
    Int × RateLimitService :=
  match s.usage user_id with
  | none => (s.limit, s)
  | some (last_date, count) =>
      if last_date ≠ today then (s.limit, s)
      else (max 0 (s.limit - count), s)

/-- The integer result of `get_remaining_requests`. -/
def get_remaining_requests (s : RateLimitService) (today : Nat) (user_id : String) : Int :=
  (get_remaining_state s today user_id).1

/-- N successive `increment_usage` calls for one user on one day. -/
def increment_n (s : RateLimitService) (today : Nat) (user_id : String) : Nat → RateLimitService
  | 0 => s
  | n + 1 => increment_usage (increment_n s today user_id n) today user_id

/-- Running a sequence of `check_limit` calls (each with its own evaluation
day and user), threading the state component of the translation. -/
def run_checks (s : RateLimitService) : List (Nat × String) → RateLimitService
  | [] => s
  | (t, u) :: rest => run_checks (check_limit_state s t u).2 rest

/-- States reachable from a freshly constructed service by any interleaving of
the three public methods, with the evaluation day free to change between
calls. -/
inductive Reachable (limit : Int) : RateLimitService → Prop where
  | init : Reachable limit (emptyService limit)
  | step_incr (s : RateLimitService) (t : Nat) (u : String) :
      Reachable limit s → Reachable limit (increment_usage s t u)
  | step_check (s : RateLimitService) (t : Nat) (u : String) :
      Reachable limit s → Reachable limit (check_limit_state s t u).2
  | step_remaining (s : RateLimitService) (t : Nat) (u : String) :
      Reachable limit s → Reachable limit (get_remaining_state s t u).2

/-! ### Basic lemmas about the translation -/

theorem store_set_same (f : String → Option (Nat × Int)) (k : String) (v : Nat × Int) :
    store_set f k v k = some v := by
  simp [store_set]

theorem store_set_other (f : String → Option (Nat × Int)) (k u : String) (v : Nat × Int)
    (h : u ≠ k) : store_set f k v u = f u := by
  simp [store_set, h]

theorem check_limit_state_snd (s : RateLimitService) (t : Nat) (u : String) :
    (check_limit_state s t u).2 = s := by
  unfold check_limit_state
  rcases h : s.usage u with _ | ⟨d, c⟩
  · rfl
  · dsimp
    split <;> rfl

theorem get_remaining_state_snd (s : RateLimitService) (t : Nat) (u : String) :
    (get_remaining_state s t u).2 = s := by
  unfold get_remaining_state
  rcases h : s.usage u with _ | ⟨d, c⟩
  · rfl
  · dsimp
    split <;> rfl

theorem check_limit_eq (s : RateLimitService) (t : Nat) (u : String) :
    check_limit s t u =
      match s.usage u with
      | none => true
      | some (d, c) => if d ≠ t then true else decide (c < s.limit) := by
  unfold check_limit check_limit_state
  rcases h : s.usage u with _ | ⟨d, c⟩
  · rfl
  · dsimp
    split <;> rfl

theorem get_remaining_eq (s : RateLimitService) (t : Nat) (u : String) :
    get_remaining_requests s t u =
      match s.usage u with
      | none => s.limit
      | some (d, c) => if d ≠ t then s.limit else max 0 (s.limit - c) := by
  unfold get_remaining_requests get_remaining_state
  rcases h : s.usage u with _ | ⟨d, c⟩
  · rfl
  · dsimp
    split <;> rfl

theorem increment_usage_limit (s : RateLimitService) (t : Nat) (u : String) :
    (increment_usage s t u).limit = s.limit := by
  unfold increment_usage
  rcases h : s.usage u with _ | ⟨d, c⟩
  · rfl
  · dsimp
    split <;> rfl

theorem increment_usage_other (s : RateLimitService) (t : Nat) (u v : String)
    (h : v ≠ u) : (increment_usage s t u).usage v = s.usage v := by
  unfold increment_usage
  rcases hu : s.usage u with _ | ⟨d, c⟩
  · exact store_set_other _ _ _ _ h
  · dsimp
    split <;> exact store_set_other _ _ _ _ h

theorem run_checks_id (calls : List (Nat × String)) :
    ∀ s : RateLimitService, run_checks s calls = s := by
  induction calls with
  | nil => intro s; rfl
  | cons p rest ih =>
      intro s
      cases p with
      | mk t u =>
          rw [run_checks, check_limit_state_snd]
          exact ih s

/-! ### Claim theorems -/

/-- Claim C1 (code_bug evaluation): with the configured daily limit equal to 0
and an empty usage store, `check_limit` still returns `true` for an unseen
principal, because the no-record branch short-circuits to `True` without
consulting the limit.  The spec requires `false` here and flags this
short-circuit as a bug to fix. -/
theorem check_limit_fresh_zero_limit_eval :
    check_limit (emptyService 0) 0 "anyone" = true ∧
    get_remaining_requests (emptyService 0) 0 "anyone" = 0 := by
  exact ⟨rfl, rfl⟩

/-- Claim C2 (code_bug evaluation): with limit = 0 and N = 0 increments
(N ≤ limit), `get_remaining_requests` correctly returns `limit - N = 0`, but
`check_limit` returns `true` even though `N < limit` is false — the
zero-limit no-record short-circuit breaks the claimed equivalence. -/
theorem consumption_iff_fails_at_zero_limit :
    increment_n (emptyService 0) 5 "u1" 0 = emptyService 0 ∧
    get_remaining_requests (increment_n (emptyService 0) 5 "u1" 0) 5 "u1" = 0 ∧
    check_limit (increment_n (emptyService 0) 5 "u1" 0) 5 "u1" = true ∧
    ¬ ((0 : Int) < 0) := by
  exact ⟨rfl, rfl, rfl, by decide⟩

/-- Claim C3 (code_bug evaluation): with limit = 0, after exactly `limit`
(that is, zero) increments on the evaluation day, `get_remaining_requests`
returns 0 and one further increment keeps it at 0, but `check_limit` returns
`true` instead of the claimed `false`, again via the zero-limit no-record
short-circuit. -/
theorem boundary_fails_at_zero_limit :
    check_limit (increment_n (emptyService 0) 3 "u" 0) 3 "u" = true ∧
    get_remaining_requests (increment_n (emptyService 0) 3 "u" 0) 3 "u" = 0 ∧
    get_remaining_requests (increment_n (emptyService 0) 3 "u" 1) 3 "u" = 0 := by
  exact ⟨rfl, rfl, by decide⟩

/-- Claim C4: for any principal whose stored record carries `count = limit`
on day `d`, evaluating on any other day `t` (stored date ≠ current date)
yields `check_limit = true` and the full daily limit from
`get_remaining_requests`, with neither read changing the state. -/
theorem day_rollover_resets (s : RateLimitService) (t d : Nat) (p : String)
    (hrec : s.usage p = some (d, s.limit)) (hne : d ≠ t) :
    check_limit s t p = true ∧ get_remaining_requests s t p = s.limit ∧
    (check_limit_state s t p).2 = s ∧ (get_remaining_state s t p).2 = s := by
  refine ⟨?_, ?_, check_limit_state_snd s t p, get_remaining_state_snd s t p⟩
  · rw [check_limit_eq, hrec]
    simp [hne]
  · rw [get_remaining_eq, hrec]
    simp [hne]

theorem day_rollover_resets_witness :
    check_limit { usage := fun u => if u = "u1" then some (5, (10 : Int)) else none,
                  limit := 10 } 6 "u1" = true ∧
    get_remaining_requests { usage := fun u => if u = "u1" then some (5, (10 : Int)) else none,
                             limit := 10 } 6 "u1" = 10 := by
  have h := day_rollover_resets
    { usage := fun u => if u = "u1" then some (5, (10 : Int)) else none, limit := 10 }
    6 5 "u1" (by decide) (by decide)
  exact ⟨h.1, h.2.1⟩

/-- Claim C5: `increment_usage` performs no admission check — for any stored
record `(t, c)` for the current day `t`, including `c ≥ limit`, the call
stores `(t, c + 1)` unconditionally. -/
theorem increment_no_admission_check (s : RateLimitService) (t : Nat) (u : String) (c : Int)
    (h : s.usage u = some (t, c)) :
    (increment_usage s t u).usage u = some (t, c + 1) := by
  unfold increment_usage
  rw [h]
  simp [store_set]

theorem increment_no_admission_check_witness :
    (increment_usage { usage := fun v => if v = "u2" then some (3, (5 : Int)) else none,
                       limit := 5 } 3 "u2").usage "u2" = some (3, 6) ∧ (5 : Int) < 6 := by
  have h := increment_no_admission_check
    { usage := fun v => if v = "u2" then some (3, (5 : Int)) else none, limit := 5 }
    3 "u2" 5 (by decide)
  exact ⟨h, by decide⟩

/-- Claim C6: `check_limit` is read-only — any sequence of `check_limit`
calls leaves the service state unchanged, so `get_remaining_requests` is
identical before and after the sequence. -/
theorem check_limit_read_only (s : RateLimitService) (calls : List (Nat × String))
    (t : Nat) (u : String) :
    run_checks s calls = s ∧
    get_remaining_requests (run_checks s calls) t u = get_remaining_requests s t u := by
  refine ⟨run_checks_id calls s, ?_⟩
  rw [run_checks_id calls s]

/-- Claim C7: if the evaluation clock moves backward so that `t` is strictly
earlier than the stored `last_date`, the record is not treated as today's
usage: `check_limit` returns `true` and `get_remaining_requests` returns the
full limit, because the rollover test compares dates with `≠`, not `≥`. -/
theorem backward_clock_resets (s : RateLimitService) (t d : Nat) (c : Int) (u : String)
    (hrec : s.usage u = some (d, c)) (hlt : t < d) :
    check_limit s t u = true ∧ get_remaining_requests s t u = s.limit := by
  have hne : d ≠ t := by omega
  constructor
  · rw [check_limit_eq, hrec]
    simp [hne]
  · rw [get_remaining_eq, hrec]
    simp [hne]

theorem backward_clock_resets_witness :
    check_limit { usage := fun v => if v = "w" then some (7, (2 : Int)) else none,
                  limit := 4 } 6 "w" = true ∧
    get_remaining_requests { usage := fun v => if v = "w" then some (7, (2 : Int)) else none,
                             limit := 4 } 6 "w" = 4 := by
  have h := backward_clock_resets
    { usage := fun v => if v = "w" then some (7, (2 : Int)) else none, limit := 4 }
    6 7 2 "w" (by decide) (by decide)
  exact ⟨h.1, h.2⟩

/-- Claim C8: principals are independent — recording usage for principal `A`
changes neither `check_limit` nor `get_remaining_requests` for any distinct
principal `B`, on any evaluation days. -/
theorem principal_independence (s : RateLimitService) (tA tB : Nat) (A B : String)
    (hne : A ≠ B) :
    check_limit (increment_usage s tA A) tB B = check_limit s tB B ∧
    get_remaining_requests (increment_usage s tA A) tB B = get_remaining_requests s tB B := by
  have hB : (increment_usage s tA A).usage B = s.usage B :=
    increment_usage_other s tA A B (Ne.symm hne)
  have hL : (increment_usage s tA A).limit = s.limit := increment_usage_limit s tA A
  constructor
  · rw [check_limit_eq, check_limit_eq, hB, hL]
  · rw [get_remaining_eq, get_remaining_eq, hB, hL]

theorem principal_independence_witness :
    check_limit (increment_usage { usage := fun v => if v = "a" then some (0, (2 : Int)) else none,
                                   limit := 2 } 0 "a") 0 "b" =
      check_limit { usage := fun v => if v = "a" then some (0, (2 : Int)) else none,
                    limit := 2 } 0 "b" ∧
    get_remaining_requests (increment_usage
        { usage := fun v => if v = "a" then some (0, (2 : Int)) else none,
          limit := 2 } 0 "a") 0 "b" =
      get_remaining_requests { usage := fun v => if v = "a" then some (0, (2 : Int)) else none,
                               limit := 2 } 0 "b" := by
  exact principal_independence
    { usage := fun v => if v = "a" then some (0, (2 : Int)) else none, limit := 2 }
    0 0 "a" "b" (by decide)

/-- Claim C9: every state reachable from the empty store by any sequence of
the three public methods keeps the invariant that each stored record has
count ≥ 1 (`increment_usage` only writes 1 or a stored count + 1, and the
reads write nothing). -/
theorem reachable_count_positive (L : Int) (s : RateLimitService) (h : Reachable L s) :
    ∀ u d c, s.usage u = some (d, c) → 1 ≤ c := by
  induction h with
  | init =>
      intro u d c hc
      simp [emptyService] at hc
  | step_incr s t u hs ih =>
      intro v d c hc
      unfold increment_usage at hc
      rcases hu : s.usage u with _ | ⟨ld, cnt⟩
      · rw [hu] at hc
        dsimp at hc
        by_cases hv : v = u
        · rw [store_set, if_pos hv] at hc
          cases hc
          omega
        · rw [store_set_other _ _ _ _ hv] at hc
          exact ih v d c hc
      · rw [hu] at hc
        dsimp at hc
        by_cases hd : ld ≠ t
        · rw [if_pos hd] at hc
          dsimp at hc
          by_cases hv : v = u
          · rw [store_set, if_pos hv] at hc
            cases hc
            omega
          · rw [store_set_other _ _ _ _ hv] at hc
            exact ih v d c hc
        · rw [if_neg hd] at hc
          dsimp at hc
          by_cases hv : v = u
          · rw [store_set, if_pos hv] at hc
            cases hc
            have := ih u ld cnt hu
            omega
          · rw [store_set_other _ _ _ _ hv] at hc
            exact ih v d c hc
  | step_check s t u hs ih =>
      rw [check_limit_state_snd]
      exact ih
  | step_remaining s t u hs ih =>
      rw [get_remaining_state_snd]
      exact ih

theorem reachable_count_positive_witness :
    (increment_usage (emptyService 3) 0 "u").usage "u" = some (0, 1) ∧ (1 : Int) ≤ 1 := by
  constructor
  · decide
  · exact reachable_count_positive 3 (increment_usage (emptyService 3) 0 "u")
      (Reachable.step_incr (emptyService 3) 0 "u" Reachable.init) "u" 0 1 (by decide)

/-- Claim C10: whenever the configured daily limit is strictly positive,
`check_limit` returns `true` exactly when `get_remaining_requests` is
strictly positive, for every state, day and principal. -/
theorem check_limit_iff_remaining_pos (s : RateLimitService) (t : Nat) (u : String)
    (h : 0 < s.limit) :
    (check_limit s t u = true ↔ 0 < get_remaining_requests s t u) := by
  rw [check_limit_eq, get_remaining_eq]
  rcases hu : s.usage u with _ | ⟨d, c⟩
  · simpa using h
  · dsimp
    by_cases hd : d ≠ t
    · simpa [hd] using h
    · simp [hd, lt_max_iff]

theorem check_limit_iff_remaining_pos_witness :
    (check_limit (emptyService 1) 0 "x" = true ↔
      0 < get_remaining_requests (emptyService 1) 0 "x") ∧
    check_limit (emptyService 1) 0 "x" = true := by
  refine ⟨check_limit_iff_remaining_pos (emptyService 1) 0 "x" (by decide), rfl⟩
